import Mathlib

/-!
Shallow embedding of the svlopp process supervisor (Rust) for checking its
natural-language specification.

Sources embedded: `src/utils.rs` (crash-signal classification),
`src/service.rs` (exit-reason classification, service records, the id
generator, the registry with its two maps, `stop_service`, `start_service`
effects, `reload_services`, `handle_sigchld`), `src/control.rs` (wire frames,
protocol errors, `read_control_command`, the `TryFrom` conversion), and the
reactor call discipline of `src/main.rs` (which registry operations run at
which event, and how control errors are classified as fatal or recoverable).

Rust `HashMap`s are modelled as association lists with the operations the
code uses (`insert` replaces the key, `remove` drops it, `get_mut` updates in
place); `i32` values (exit codes, signals) are modelled as `Int`, pids and
ids as `Nat`. Fallible syscalls (`kill`, `fork`, `read`) are passed in as
explicit outcomes so the functions stay pure and total.
-/

namespace Svlopp

/-- Lookup in an association list, first match wins (models `HashMap::get`). -/
def alLookup {κ α : Type _} [DecidableEq κ] (k : κ) : List (κ × α) → Option α
  | [] => none
  | (k', v) :: rest => if k' = k then some v else alLookup k rest

/-- Remove every binding of `k` (models `HashMap::remove`; on the key-unique
lists built by the registry operations this removes at most one binding). -/
def alErase {κ α : Type _} [DecidableEq κ] (k : κ) : List (κ × α) → List (κ × α)
  | [] => []
  | (k', v) :: rest =>
    if k' = k then alErase k rest else (k', v) :: alErase k rest

/-- Insert a binding, replacing any previous one (models `HashMap::insert`). -/
def alInsert {κ α : Type _} [DecidableEq κ] (k : κ) (v : α)
    (l : List (κ × α)) : List (κ × α) :=
  (k, v) :: alErase k l

/-- Update the value bound to `k` in place (models mutation through
`HashMap::get_mut`). -/
def alUpdate {κ α : Type _} [DecidableEq κ] (k : κ) (f : α → α) :
    List (κ × α) → List (κ × α)
  | [] => []
  | (k', v) :: rest =>
    if k' = k then (k', f v) :: alUpdate k f rest
    else (k', v) :: alUpdate k f rest

/-! ## utils.rs -/

/-- From `utils.rs` `is_crash_signal`: the Linux numeric values of the libc
constants used there are `SIGSEGV = 11`, `SIGABRT = 6`, `SIGFPE = 8`,
`SIGILL = 4`, `SIGBUS = 7`. -/
def is_crash_signal (sig : Int) : Bool :=
  sig == 11 || sig == 6 || sig == 8 || sig == 4 || sig == 7

/-- Numeric value of `Signal::TERM` sent by `stop_service`. -/
def SIGTERM : Int := 15

/-! ## service.rs: states and reap classification -/

/-- From `service.rs` `ExitReason`: how a reaped child ended. -/
inductive ExitReason : Type
  | Exited (code : Int)
  | Signaled (sig : Int)
deriving DecidableEq

/-- From `service.rs` `ServiceStopReason` (the spec calls `Success`
`ExitedSuccess` and `Error` `ExitedError`). -/
inductive ServiceStopReason : Type
  | NeverStarted
  | SupervisorTerminated
  | Success
  | Error (code : Int)
  | Crashed (sig : Int)
  | Killed (sig : Int)
deriving DecidableEq

/-- From `service.rs` `ServiceState`. In this snapshot of the source the
`Stopping` variant carries no payload: no grace deadline is recorded. -/
inductive ServiceState : Type
  | Stopped (reason : ServiceStopReason)
  | Running
  | Stopping
deriving DecidableEq

/-- From `service.rs` `ServiceStopReason::from_exit_reason_and_service_state`,
branch for branch. -/
def ServiceStopReason.from_exit_reason_and_service_state
    (exit_reason : ExitReason) (svc_state : ServiceState) : ServiceStopReason :=
  match exit_reason with
  | .Exited code =>
    if svc_state = .Stopping then .SupervisorTerminated
    else if code = 0 then .Success
    else .Error code
  | .Signaled sig =>
    if is_crash_signal sig then .Crashed sig
    else if svc_state = .Stopping then .SupervisorTerminated
    else .Killed sig

/-! ## service.rs: service records and the id generator -/

/-- From `service.rs` `ServiceConfig`. -/
structure ServiceConfig : Type where
  command : String
  args : List String
deriving DecidableEq

/-- From `service.rs` `Service`. The derived `argv` field (the `CString`
rendering of `config`) is omitted: no claim depends on it. -/
structure Service : Type where
  id : Nat
  name : String
  config : ServiceConfig
  pid : Option Nat
  state : ServiceState
deriving DecidableEq

/-- From `service.rs` `Service::is_stopped`. -/
def Service.is_stopped (svc : Service) : Bool :=
  match svc.state with
  | .Stopped _ => true
  | _ => false

/-- `u16::checked_add` for in-range operands: `none` exactly when the sum
leaves the 16-bit range. -/
def u16_checked_add (a b : Nat) : Option Nat :=
  if a + b ≤ 65535 then some (a + b) else none

/-- From `service.rs` `ServiceIdGen`: a `u16` counter. -/
structure ServiceIdGen : Type where
  val : Nat
deriving DecidableEq

/-- From `service.rs` `ServiceIdGen::new` (`u16` default is 0). -/
def ServiceIdGen.new : ServiceIdGen := ⟨0⟩

/-- From `service.rs` `ServiceIdGen::nextval`: return the held value and
increment; on `u16` overflow return `none` with the state unchanged (the `?`
fires before the store, so 65535 itself is never handed out). -/
def ServiceIdGen.nextval (g : ServiceIdGen) : Option Nat × ServiceIdGen :=
  match u16_checked_add g.val 1 with
  | none => (none, g)
  | some v => (some g.val, ⟨v⟩)

/-- Generator state after `n` calls to `nextval` starting from `new`. -/
def gen_after : Nat → ServiceIdGen
  | 0 => ServiceIdGen.new
  | n + 1 => ((gen_after n).nextval).2

/-- Value returned by the `k`-th call to `nextval` (`k ≥ 1`) starting from
`new`. -/
def nth_call_result (k : Nat) : Option Nat :=
  ((gen_after (k - 1)).nextval).1

/-! ## service.rs: stop and spawn -/

/-- From `service.rs` `stop_service`. `kill_res p` is the outcome the kernel
gives `kill(p, SIGTERM)`. The result carries the updated service and the
signal actually sent as a `(pid, signo)` pair. A non-`Running` service is
returned unchanged with success; a `Running` service without a pid is logged
and returned unchanged with success; a failing `kill` propagates the error
before the state is touched. -/
def stop_service (kill_res : Nat → Except Int Unit) (svc : Service) :
    Except Int (Service × Option (Nat × Int)) :=
  if svc.state ≠ ServiceState.Running then .ok (svc, none)
  else
    match svc.pid with
    | none => .ok (svc, none)
    | some p =>
      match kill_res p with
      | .error e => .error e
      | .ok _ => .ok ({ svc with state := .Stopping }, some (p, SIGTERM))

/-- A `kill` outcome that always succeeds. -/
def kill_ok : Nat → Except Int Unit := fun _ => .ok ()

/-- Parent-side effect of `service.rs` `start_service`: on a successful fork
the returned pid is recorded and the state set to `Running`; on fork failure
the error is surfaced and the record untouched. -/
def start_service (svc : Service) (fork_res : Except Int Nat) :
    Except Int Service :=
  match fork_res with
  | .ok p => .ok { svc with pid := some p, state := .Running }
  | .error e => .error e

/-! ## service.rs: the registry -/

/-- From `service.rs` `ServiceRegistry`: the `id → Service` owner map and the
`pid → id` lookup map. -/
structure ServiceRegistry : Type where
  services_map : List (Nat × Service)
  pids_map : List (Nat × Nat)
deriving DecidableEq

/-- From `service.rs` `ServiceRegistry::new`. -/
def ServiceRegistry.new : ServiceRegistry := ⟨[], []⟩

/-- From `service.rs` `ServiceRegistry::insert_service`. -/
def ServiceRegistry.insert_service (r : ServiceRegistry) (svc : Service) :
    ServiceRegistry :=
  { r with services_map := alInsert svc.id svc r.services_map }

/-- From `service.rs` `ServiceRegistry::service`. -/
def ServiceRegistry.service (r : ServiceRegistry) (svc_id : Nat) :
    Option Service :=
  alLookup svc_id r.services_map

/-- From `service.rs` `ServiceRegistry::register_pid`. -/
def ServiceRegistry.register_pid (r : ServiceRegistry) (pid svc_id : Nat) :
    ServiceRegistry :=
  { r with pids_map := alInsert pid svc_id r.pids_map }

/-- Field update through `ServiceRegistry::service_mut` /
`services_mut`: apply `f` to the record bound to `svc_id`. -/
def ServiceRegistry.update_service (r : ServiceRegistry) (svc_id : Nat)
    (f : Service → Service) : ServiceRegistry :=
  { r with services_map := alUpdate svc_id f r.services_map }

/-! ## service.rs: SIGCHLD handling -/

/-- One iteration of the `handle_sigchld` loop for a reaped `(pid, status)`
pair; `exit_reason` is `ExitReason::from_wait_status status` (`none` when the
status is neither an exit nor a termination by signal, in which case the code
only logs). `take_by_pid` removes the pid entry first, then the record is
cleared and moved to `Stopped`; unknown pids are logged and ignored. -/
def reap_one (r : ServiceRegistry) (pid : Nat)
    (exit_reason : Option ExitReason) : ServiceRegistry :=
  match exit_reason with
  | some er =>
    match alLookup pid r.pids_map with
    | some svc_id =>
      match alLookup svc_id r.services_map with
      | some svc =>
        { services_map :=
            alUpdate svc_id
              (fun s =>
                { s with
                  pid := none
                  state := .Stopped
                    (ServiceStopReason.from_exit_reason_and_service_state
                      er svc.state) })
              r.services_map,
          pids_map := alErase pid r.pids_map }
      | none => { r with pids_map := alErase pid r.pids_map }
    | none => r
  | none => r

/-- From `service.rs` `handle_sigchld`: drain the list of ready children the
kernel reports, applying `reap_one` to each in order. -/
def handle_sigchld (r : ServiceRegistry)
    (events : List (Nat × Option ExitReason)) : ServiceRegistry :=
  events.foldl (fun acc ev => reap_one acc ev.1 ev.2) r

/-! ## service.rs: reload -/

/-- From `service.rs` `reload_services`, with the parse of the config file
passed in as `parse_res`. The function builds the `name → id` table of the
current registry and then only logs the added / removed / updated service
names; the registry itself is returned unmodified (the source contains no
insert, spawn, stop or mark-for-removal call). The `unwrap` on
`registry.service(svc_id)` cannot fail because the id was just taken from the
registry; that arm is modelled as producing no log line. -/
def reload_services (r : ServiceRegistry)
    (parse_res : Except String (List (String × ServiceConfig))) :
    Except String (ServiceRegistry × List String) :=
  match parse_res with
  | .error e => .error e
  | .ok cfgs =>
    let service_ids : List (String × Nat) :=
      r.services_map.foldl (fun m p => alInsert p.2.name p.2.id m) []
    let removed_logs : List String :=
      (service_ids.map Prod.fst).filterMap fun name =>
        if (alLookup name cfgs).isSome then none
        else some ("removig service " ++ name)
    let add_update_logs : List String :=
      cfgs.filterMap fun nc =>
        match alLookup nc.1 service_ids with
        | none => some ("adding new service " ++ nc.1)
        | some svc_id =>
          match r.service svc_id with
          | some svc =>
            if svc.config ≠ nc.2 then some ("updating service " ++ nc.1)
            else none
          | none => none
    .ok (r, removed_logs ++ add_update_logs)

/-! ## control.rs -/

/-- From `control.rs`: opcode constants. -/
def OP_STOP : Nat := 0x41

/-- From `control.rs`: opcode constant for start. -/
def OP_START : Nat := 0x42

/-- From `control.rs`: opcode constant for restart. -/
def OP_RESTART : Nat := 0x43

/-- From `control.rs`: size in bytes of one wire frame. -/
def WIRE_COMMAND_SIZE : Nat := 256

/-- From `control.rs` `ControlProtocolError`. -/
inductive ControlProtocolError : Type
  | InvalidOp (op : Nat)
  | InvalidNameLen (len : Nat)
  | InvalidUtf8
  | PartialFrame (n : Nat)
deriving DecidableEq

/-- From `control.rs` `ControlError`: kernel I/O failures versus protocol
validation failures. -/
inductive ControlError : Type
  | Io (e : Int)
  | InvalidCommand (e : ControlProtocolError)
deriving DecidableEq

/-- From `control.rs` `ControlOp`. -/
inductive ControlOp : Type
  | Stop
  | Start
  | Restart
deriving DecidableEq

/-- From `control.rs` `WireControlCommand` (`repr(C)`): a 1-byte opcode, a
1-byte name length, and a `WIRE_COMMAND_SIZE - 2 = 254` byte name buffer.
Bytes are modelled as `Nat`s below 256; the buffer as the list of its bytes. -/
structure WireControlCommand : Type where
  op : Nat
  name_len : Nat
  name : List Nat
deriving DecidableEq

/-- From `control.rs` `WireControlCommand::empty`. -/
def WireControlCommand.empty : WireControlCommand :=
  ⟨0, 0, List.replicate (WIRE_COMMAND_SIZE - 2) 0⟩

/-- Byte size of a frame as laid out by `repr(C)`: opcode byte, name-length
byte, then the name buffer. -/
def wire_size (w : WireControlCommand) : Nat :=
  1 + 1 + w.name.length

/-- From `control.rs` `ControlCommand`; the borrowed `&str` name is modelled
as the list of its (validated) UTF-8 bytes. -/
structure ControlCommand : Type where
  op : ControlOp
  name : List Nat
deriving DecidableEq

/-- Whether `b` is a UTF-8 continuation byte (`0x80..=0xBF`). -/
def is_utf8_cont (b : Nat) : Bool :=
  0x80 ≤ b && b ≤ 0xBF

/-- UTF-8 validity of a byte sequence, as `str::from_utf8` checks it: ASCII,
two-byte leads `0xC2..=0xDF`, three-byte leads `0xE0..=0xEF` (with the `0xE0`
overlong and `0xED` surrogate exclusions) and four-byte leads `0xF0..=0xF4`
(with the `0xF0` overlong and `0xF4` out-of-range exclusions), each followed
by the right number of continuation bytes. -/
def utf8Valid : List Nat → Bool
  | [] => true
  | b :: rest =>
    if b < 0x80 then utf8Valid rest
    else if 0xC2 ≤ b && b ≤ 0xDF then
      match rest with
      | b1 :: r => is_utf8_cont b1 && utf8Valid r
      | [] => false
    else if 0xE0 ≤ b && b ≤ 0xEF then
      match rest with
      | b1 :: b2 :: r =>
        (if b = 0xE0 then decide (0xA0 ≤ b1) && decide (b1 ≤ 0xBF)
         else if b = 0xED then decide (0x80 ≤ b1) && decide (b1 ≤ 0x9F)
         else is_utf8_cont b1)
          && is_utf8_cont b2 && utf8Valid r
      | _ => false
    else if 0xF0 ≤ b && b ≤ 0xF4 then
      match rest with
      | b1 :: b2 :: b3 :: r =>
        (if b = 0xF0 then decide (0x90 ≤ b1) && decide (b1 ≤ 0xBF)
         else if b = 0xF4 then decide (0x80 ≤ b1) && decide (b1 ≤ 0x8F)
         else is_utf8_cont b1)
          && is_utf8_cont b2 && is_utf8_cont b3 && utf8Valid r
      | _ => false
    else false

/-- The opcode match at the head of the `TryFrom` conversion in
`control.rs`: the three known opcodes, or `InvalidOp` on anything else. -/
def control_op_of_byte (b : Nat) : Except ControlProtocolError ControlOp :=
  if b = OP_STOP then .ok .Stop
  else if b = OP_START then .ok .Start
  else if b = OP_RESTART then .ok .Restart
  else .error (.InvalidOp b)

/-- From `control.rs` `TryFrom<&WireControlCommand> for ControlCommand`: the
opcode is matched first, then `name_len` is bounds-checked against the name
buffer, then the `name_len`-byte prefix is UTF-8 validated. -/
def control_command_try_from (w : WireControlCommand) :
    Except ControlProtocolError ControlCommand :=
  match control_op_of_byte w.op with
  | .error e => .error e
  | .ok op =>
    if w.name_len > w.name.length then .error (.InvalidNameLen w.name_len)
    else if utf8Valid (w.name.take w.name_len) then
      .ok ⟨op, w.name.take w.name_len⟩
    else .error .InvalidUtf8

/-- Outcome of the non-blocking `read(2)` on the control fifo: the bytes
actually read, a `WouldBlock`, or another kernel error `e`. -/
inductive ReadResult : Type
  | okRead (bytes : List Nat)
  | wouldBlock
  | fail (e : Int)
deriving DecidableEq

/-- Reinterpretation of a full 256-byte read as the `repr(C)` struct: byte 0
is the opcode, byte 1 the name length, bytes 2..256 the name buffer. -/
def wire_of_bytes (bytes : List Nat) : WireControlCommand :=
  ⟨bytes.headD 0, (bytes.drop 1).headD 0, bytes.drop 2⟩

/-- From `control.rs` `read_control_command`: a frame only when exactly
`WIRE_COMMAND_SIZE` bytes were read; zero bytes or `WouldBlock` yield no
frame; any other byte count is a recoverable `PartialFrame`; other kernel
errors are I/O errors. -/
def read_control_command (res : ReadResult) :
    Except ControlError (Option WireControlCommand) :=
  match res with
  | .okRead bytes =>
    if bytes.length = WIRE_COMMAND_SIZE then .ok (some (wire_of_bytes bytes))
    else if bytes.length = 0 then .ok none
    else .error (.InvalidCommand (.PartialFrame bytes.length))
  | .wouldBlock => .ok none
  | .fail e => .error (.Io e)

/-- From the `ID_PFD` arm of the reactor loop in `main.rs`: an
`InvalidCommand` error is logged and the loop continues, an `Io` error is
returned from `main` (fatal). -/
def control_error_is_fatal : ControlError → Bool
  | .Io _ => true
  | .InvalidCommand _ => false

/-! ## Reactor steps on the registry (from main.rs and service.rs)

The registry is mutated only by the reactor thread, at the points the
spec calls quiescent boundaries: inserting a freshly built record during
config load, spawning it (`start_service` followed by `register_pid`, as
in the startup loop of `main.rs`), graceful-stop requests
(`stop_service`, as in the shutdown arm of `main.rs`), and SIGCHLD
handling. `reload_services` never mutates the registry, so it contributes
no step. -/

/-- Service-record effect of a successful `stop_service` call with a
succeeding `kill` (the only path `main.rs` exercises at a quiescent
boundary; a failing `kill` leaves the record unchanged). -/
def apply_stop (s : Service) : Service :=
  match stop_service kill_ok s with
  | .ok (s', _) => s'
  | .error _ => s

/-- Registry effect of a `stop_service` call on the record of `svc_id`
(the pid maps are untouched by `stop_service`). -/
def registry_stop (r : ServiceRegistry) (svc_id : Nat) : ServiceRegistry :=
  r.update_service svc_id apply_stop

/-- Record effect of a successful `start_service`: pid recorded, state set
to `Running`. -/
def spawn_update (p : Nat) (s : Service) : Service :=
  { s with pid := some p, state := .Running }

/-- Registry effect of the spawn sequence in `main.rs`: `start_service`
mutates the record through `service_mut`, then `register_pid` inserts
`p → svc_id`. -/
def registry_spawn (r : ServiceRegistry) (svc_id p : Nat) : ServiceRegistry :=
  (r.update_service svc_id (spawn_update p)).register_pid p svc_id

/-- Registry states reachable at the quiescent points of the reactor.
`insert_new` carries the shape `Service::new` gives a record (no pid,
`Stopped(NeverStarted)`) and the freshness `ServiceIdGen::nextval`
guarantees for its id; `spawn` is constrained to stopped records (the
startup loop spawns only freshly inserted records, and the spec's control
`Start` only spawns stopped services) and carries the kernel's guarantee
that a newly forked pid cannot collide with a live, still-tracked child;
`stop` and `sigchld` run the corresponding source operations unrestricted. -/
inductive Reachable : ServiceRegistry → Prop
  | init : Reachable ServiceRegistry.new
  | insert_new (r : ServiceRegistry) (svc : Service) :
      Reachable r →
      alLookup svc.id r.services_map = none →
      svc.pid = none →
      svc.state = .Stopped .NeverStarted →
      Reachable (r.insert_service svc)
  | spawn (r : ServiceRegistry) (svc_id p : Nat) (svc : Service) :
      Reachable r →
      alLookup svc_id r.services_map = some svc →
      svc.is_stopped = true →
      alLookup p r.pids_map = none →
      Reachable (registry_spawn r svc_id p)
  | stop (r : ServiceRegistry) (svc_id : Nat) :
      Reachable r →
      Reachable (registry_stop r svc_id)
  | sigchld (r : ServiceRegistry) (events : List (Nat × Option ExitReason)) :
      Reachable r →
      Reachable (handle_sigchld r events)

/-- Induction-friendly registry invariant: every record is keyed by its own
id; `Running`/`Stopping` records have a pid that the pid index maps back to
their id; `Stopped` records have no pid; and every pid-index entry points to
an existing `Running`/`Stopping` record holding that pid. -/
def InvAux (r : ServiceRegistry) : Prop :=
  (∀ i svc, alLookup i r.services_map = some svc →
    svc.id = i ∧
    ((svc.state = .Running ∨ svc.state = .Stopping) →
      ∃ p, svc.pid = some p ∧ alLookup p r.pids_map = some i) ∧
    (∀ reason, svc.state = .Stopped reason → svc.pid = none)) ∧
  (∀ p i, alLookup p r.pids_map = some i →
    ∃ svc, alLookup i r.services_map = some svc ∧ svc.pid = some p ∧
      (svc.state = .Running ∨ svc.state = .Stopping))

/-- The claim-facing registry invariant: `Running`/`Stopping` records have a
pid mapped back to their id; `Stopped` records have no pid and no pid-index
entry refers to them; and the pid index is exactly the inverse of the
`id → pid` relation restricted to `some` values. -/
def RegistryInv (r : ServiceRegistry) : Prop :=
  (∀ i svc, alLookup i r.services_map = some svc →
    ((svc.state = .Running ∨ svc.state = .Stopping) →
      ∃ p, svc.pid = some p ∧ alLookup p r.pids_map = some i) ∧
    (∀ reason, svc.state = .Stopped reason →
      svc.pid = none ∧ ∀ p, alLookup p r.pids_map ≠ some i)) ∧
  (∀ p i, alLookup p r.pids_map = some i ↔
    ∃ svc, alLookup i r.services_map = some svc ∧ svc.pid = some p)

/-! ## Spec-side constants and concrete values used by witnesses -/

/-- The spec's grace period design constant (default: 5 seconds). The source
in `service.rs` defines no such constant and its `Stopping` state stores no
deadline; this value exists only to state the deadline clause of the spec. -/
def grace_period : Nat := 5

/-- A concrete running service with a recorded pid. -/
def svc_running : Service :=
  ⟨0, "svc", ⟨"/bin/sleep", ["3600"]⟩, some 5, .Running⟩

/-- State of `svc_running` after a graceful stop with a succeeding `kill`. -/
def stop_post_state : ServiceState :=
  match stop_service kill_ok svc_running with
  | .ok (s, _) => s.state
  | .error _ => svc_running.state

/-- A concrete stopped service record as built by `Service::new`. -/
def svc_fresh : Service :=
  ⟨0, "a", ⟨"/bin/true", []⟩, none, .Stopped .NeverStarted⟩

/-- A concrete reachable registry: `svc_fresh` inserted and then spawned
with pid 42. -/
def sample_registry : ServiceRegistry :=
  registry_spawn (ServiceRegistry.new.insert_service svc_fresh) 0 42

/-! ## Association-list lemmas -/

theorem alLookup_alErase {κ α : Type _} [DecidableEq κ] (k j : κ)
    (l : List (κ × α)) :
    alLookup j (alErase k l) = if j = k then none else alLookup j l := by
  induction l with
  | nil => simp [alErase, alLookup]
  | cons hd tl ih =>
    obtain ⟨k', v⟩ := hd
    by_cases h1 : k' = k
    · subst h1
      by_cases h2 : j = k'
      · subst h2
        simp [alErase, alLookup, ih]
      · have h3 : ¬ (k' = j) := fun h => h2 h.symm
        simp [alErase, alLookup, ih, h2, h3]
    · by_cases h2 : j = k
      · subst h2
        have h3 : ¬ (k' = j) := h1
        simp [alErase, alLookup, ih, h1, h3]
      · simp [alErase, alLookup, ih, h1, h2]

theorem alLookup_alInsert {κ α : Type _} [DecidableEq κ] (k j : κ) (v : α)
    (l : List (κ × α)) :
    alLookup j (alInsert k v l) = if j = k then some v else alLookup j l := by
  unfold alInsert
  by_cases h : j = k
  · subst h
    simp [alLookup]
  · have h3 : ¬ (k = j) := fun hh => h hh.symm
    simp [alLookup, h3, h, alLookup_alErase]

theorem alLookup_alUpdate {κ α : Type _} [DecidableEq κ] (k j : κ)
    (f : α → α) (l : List (κ × α)) :
    alLookup j (alUpdate k f l) =
      if j = k then (alLookup j l).map f else alLookup j l := by
  induction l with
  | nil => simp [alUpdate, alLookup]
  | cons hd tl ih =>
    obtain ⟨k', v⟩ := hd
    by_cases h1 : k' = k
    · subst h1
      by_cases h2 : j = k'
      · subst h2
        simp [alUpdate, alLookup, ih]
      · have h3 : ¬ (k' = j) := fun h => h2 h.symm
        simp [alUpdate, alLookup, h2, h3, ih]
    · by_cases h2 : k' = j
      · have hjk : ¬ (j = k) := fun hh => h1 (h2.trans hh)
        simp [alUpdate, alLookup, h1, h2, hjk]
      · simp [alUpdate, alLookup, h1, h2, ih]

/-! ## Lemmas about the stop and id-generator operations -/

theorem apply_stop_eq (s : Service) :
    apply_stop s =
      if s.state = ServiceState.Running then
        (match s.pid with
         | none => s
         | some _ => { s with state := .Stopping })
      else s := by
  unfold apply_stop stop_service kill_ok
  by_cases hs : s.state = ServiceState.Running
  · simp only [hs, ne_eq, not_true_eq_false, if_false, if_pos]
    cases s.pid <;> simp
  · simp [hs]

theorem apply_stop_id (s : Service) : (apply_stop s).id = s.id := by
  rw [apply_stop_eq]
  by_cases h : s.state = ServiceState.Running
  · simp only [h, if_pos]
    cases s.pid <;> simp
  · simp [h]

theorem apply_stop_pid (s : Service) : (apply_stop s).pid = s.pid := by
  rw [apply_stop_eq]
  by_cases h : s.state = ServiceState.Running
  · simp only [h, if_pos]
    cases hp : s.pid <;> simp [hp]
  · simp [h]

theorem apply_stop_state (s : Service) :
    (apply_stop s).state = s.state ∨
      (apply_stop s).state = ServiceState.Stopping := by
  rw [apply_stop_eq]
  by_cases h : s.state = ServiceState.Running
  · simp only [h, if_pos]
    cases hp : s.pid <;> simp [hp, h]
  · simp [h]

/-! ## Component equations for the registry operations -/

@[simp]
theorem insert_service_services_map (r : ServiceRegistry) (svc : Service) :
    (r.insert_service svc).services_map =
      alInsert svc.id svc r.services_map := rfl

@[simp]
theorem insert_service_pids_map (r : ServiceRegistry) (svc : Service) :
    (r.insert_service svc).pids_map = r.pids_map := rfl

@[simp]
theorem register_pid_services_map (r : ServiceRegistry) (p i : Nat) :
    (r.register_pid p i).services_map = r.services_map := rfl

@[simp]
theorem register_pid_pids_map (r : ServiceRegistry) (p i : Nat) :
    (r.register_pid p i).pids_map = alInsert p i r.pids_map := rfl

@[simp]
theorem update_service_services_map (r : ServiceRegistry) (i : Nat)
    (f : Service → Service) :
    (r.update_service i f).services_map = alUpdate i f r.services_map := rfl

@[simp]
theorem update_service_pids_map (r : ServiceRegistry) (i : Nat)
    (f : Service → Service) :
    (r.update_service i f).pids_map = r.pids_map := rfl

@[simp]
theorem registry_spawn_services_map (r : ServiceRegistry) (svc_id p : Nat) :
    (registry_spawn r svc_id p).services_map =
      alUpdate svc_id (spawn_update p) r.services_map := rfl

@[simp]
theorem registry_spawn_pids_map (r : ServiceRegistry) (svc_id p : Nat) :
    (registry_spawn r svc_id p).pids_map =
      alInsert p svc_id r.pids_map := rfl

@[simp]
theorem registry_stop_services_map (r : ServiceRegistry) (svc_id : Nat) :
    (registry_stop r svc_id).services_map =
      alUpdate svc_id apply_stop r.services_map := rfl

@[simp]
theorem registry_stop_pids_map (r : ServiceRegistry) (svc_id : Nat) :
    (registry_stop r svc_id).pids_map = r.pids_map := rfl

theorem reap_one_none (r : ServiceRegistry) (pid : Nat) :
    reap_one r pid none = r := rfl

theorem reap_one_unknown_pid (r : ServiceRegistry) (pid : Nat)
    (e : ExitReason) (h : alLookup pid r.pids_map = none) :
    reap_one r pid (some e) = r := by
  unfold reap_one
  rw [h]

theorem reap_one_dangling (r : ServiceRegistry) (pid svc_id : Nat)
    (e : ExitReason) (h1 : alLookup pid r.pids_map = some svc_id)
    (h2 : alLookup svc_id r.services_map = none) :
    reap_one r pid (some e) = ⟨r.services_map, alErase pid r.pids_map⟩ := by
  unfold reap_one
  rw [h1]
  dsimp only
  rw [h2]

theorem reap_one_found (r : ServiceRegistry) (pid svc_id : Nat)
    (e : ExitReason) (svc : Service)
    (h1 : alLookup pid r.pids_map = some svc_id)
    (h2 : alLookup svc_id r.services_map = some svc) :
    reap_one r pid (some e) =
      ⟨alUpdate svc_id
          (fun s =>
            { s with
              pid := none
              state := .Stopped
                (ServiceStopReason.from_exit_reason_and_service_state
                  e svc.state) })
          r.services_map,
        alErase pid r.pids_map⟩ := by
  unfold reap_one
  rw [h1]
  dsimp only
  rw [h2]

theorem is_stopped_iff (svc : Service) :
    svc.is_stopped = true ↔ ∃ reason, svc.state = .Stopped reason := by
  unfold Service.is_stopped
  cases hst : svc.state <;> simp [hst]

theorem gen_after_val (n : Nat) : (gen_after n).val = min n 65535 := by
  induction n with
  | zero => simp [gen_after, ServiceIdGen.new]
  | succ n ih =>
    show (((gen_after n).nextval).2).val = min (n + 1) 65535
    unfold ServiceIdGen.nextval u16_checked_add
    by_cases h : (gen_after n).val + 1 ≤ 65535
    · simp only [h, if_pos]
      rw [ih] at h ⊢
      omega
    · simp only [h, if_neg, not_false_iff]
      rw [ih] at h ⊢
      omega

/-! ## Claim C1 — reap classification of exits -/

/-- C1, counterexample: the claim says a child that exited with code 0 is
classified `ExitedSuccess` (`Success` in the source) for both entering
states `Running` and `Stopping`; the code classifies `Exited(0)` observed in
state `Stopping` as `SupervisorTerminated`, because the `Stopping` test
precedes the exit-code test. -/
theorem C1_exit_zero_stopping_counterexample :
    ServiceStopReason.from_exit_reason_and_service_state
        (.Exited 0) .Stopping = .SupervisorTerminated ∧
    ServiceStopReason.from_exit_reason_and_service_state
        (.Exited 0) .Stopping ≠ .Success := by
  decide

/-- C1, amended: for a reaped child that exited, the entering state
`Stopping` dominates every exit code and yields `SupervisorTerminated`;
in entering state `Running`, exit code 0 yields `Success` and a non-zero
code yields `Error(code)`. -/
theorem C1_exit_classification (code : Int) (s : ServiceState)
    (hs : s = .Running ∨ s = .Stopping) :
    (s = .Stopping →
      ServiceStopReason.from_exit_reason_and_service_state (.Exited code) s =
        .SupervisorTerminated) ∧
    (s = .Running → code = 0 →
      ServiceStopReason.from_exit_reason_and_service_state (.Exited code) s =
        .Success) ∧
    (s = .Running → code ≠ 0 →
      ServiceStopReason.from_exit_reason_and_service_state (.Exited code) s =
        .Error code) := by
  rcases hs with h | h
  · subst h
    refine ⟨?_, ?_, ?_⟩
    · intro h1
      simp at h1
    · intro _ h2
      simp [ServiceStopReason.from_exit_reason_and_service_state, h2]
    · intro _ h2
      simp [ServiceStopReason.from_exit_reason_and_service_state, h2]
  · subst h
    refine ⟨?_, ?_, ?_⟩
    · intro _
      simp [ServiceStopReason.from_exit_reason_and_service_state]
    · intro h1
      simp at h1
    · intro h1
      simp at h1

/-- C1, witness for the amended theorem at exit code 0 in state `Running`. -/
theorem C1_exit_classification_witness :
    ServiceStopReason.from_exit_reason_and_service_state
      (.Exited 0) .Running = .Success :=
  (C1_exit_classification 0 .Running (Or.inl rfl)).2.1 rfl rfl

/-! ## Claim C3 — control frame wire format -/

/-- C3, counterexample: the claim says a control frame is exactly 9 bytes
(1-byte opcode, 8-byte service id); the source fixes
`WIRE_COMMAND_SIZE = 256` and lays the frame out as opcode byte, name-length
byte and a 254-byte name buffer, so the frame size is 256, not 9. -/
theorem C3_frame_size_counterexample :
    WIRE_COMMAND_SIZE = 256 ∧ WIRE_COMMAND_SIZE ≠ 9 ∧
      wire_size WireControlCommand.empty = 256 := by
  refine ⟨rfl, by decide, ?_⟩
  simp only [wire_size, WireControlCommand.empty, List.length_replicate,
    WIRE_COMMAND_SIZE]

/-- C3, amended: a control frame is exactly `WIRE_COMMAND_SIZE = 256` bytes:
a 1-byte opcode, a 1-byte name length and a 254-byte service-name buffer,
with opcodes `Stop = 0x41`, `Start = 0x42`, `Restart = 0x43`. -/
theorem C3_frame_format :
    WIRE_COMMAND_SIZE = 256 ∧
    wire_size WireControlCommand.empty = WIRE_COMMAND_SIZE ∧
    WireControlCommand.empty.name.length = WIRE_COMMAND_SIZE - 2 ∧
    OP_STOP = 0x41 ∧ OP_START = 0x42 ∧ OP_RESTART = 0x43 := by
  refine ⟨rfl, ?_, ?_, rfl, rfl, rfl⟩ <;>
    simp only [wire_size, WireControlCommand.empty, List.length_replicate,
      WIRE_COMMAND_SIZE]

/-! ## Claim C4 — reload does not add new services -/

/-- C4: with an empty registry and a parsed configuration containing the new
service `c`, `reload_services` only logs the addition and returns the
registry unchanged: no fresh id is assigned, nothing is inserted, nothing is
spawned. This contradicts both the claim and the function's own doc comment
("For new services ... insert it in the registry and starts it"). -/
theorem C4_reload_ignores_added_service :
    reload_services ServiceRegistry.new
        (.ok [("c", ⟨"/bin/true", []⟩)]) =
      .ok (ServiceRegistry.new, ["adding new service c"]) ∧
    ServiceRegistry.new.services_map = [] := by
  constructor
  · rfl
  · rfl

/-! ## Claim C5 — reap classification of signals -/

/-- C5: a child terminated by a crash signal (SEGV, ABRT, FPE, ILL, BUS) is
classified `Crashed(signo)` regardless of the entering state; any other
terminating signal yields `SupervisorTerminated` when the entering state was
`Stopping` and `Killed(signo)` when it was `Running`. -/
theorem C5_signal_classification (sig : Int) (s : ServiceState)
    (hs : s = .Running ∨ s = .Stopping) :
    (is_crash_signal sig = true →
      ServiceStopReason.from_exit_reason_and_service_state
        (.Signaled sig) s = .Crashed sig) ∧
    (is_crash_signal sig = false → s = .Stopping →
      ServiceStopReason.from_exit_reason_and_service_state
        (.Signaled sig) s = .SupervisorTerminated) ∧
    (is_crash_signal sig = false → s = .Running →
      ServiceStopReason.from_exit_reason_and_service_state
        (.Signaled sig) s = .Killed sig) := by
  refine ⟨?_, ?_, ?_⟩
  · intro hc
    simp [ServiceStopReason.from_exit_reason_and_service_state, hc]
  · intro hc hstop
    subst hstop
    simp [ServiceStopReason.from_exit_reason_and_service_state, hc]
  · intro hc hrun
    subst hrun
    simp [ServiceStopReason.from_exit_reason_and_service_state, hc]

/-- C5, witness: SIGABRT (6) while `Stopping` is still a crash. -/
theorem C5_signal_classification_witness :
    ServiceStopReason.from_exit_reason_and_service_state
      (.Signaled 6) .Stopping = .Crashed 6 :=
  (C5_signal_classification 6 .Stopping (Or.inr rfl)).1 (by decide)

/-! ## Claim C7 — graceful stop -/

/-- C7, counterexample: the claim says stopping a `Running` service sets its
state to `Stopping` with deadline `now + grace_period`. In the source the
`Stopping` variant carries no payload and `stop_service` takes no clock
input, so the post-stop state is one fixed value; no reading `dl` of that
state can report the deadline for two different values of `now` (here 0 and
7), hence no deadline is recorded at all. -/
theorem C7_no_deadline_counterexample :
    stop_post_state = ServiceState.Stopping ∧
    ¬ ∃ dl : ServiceState → Option Nat,
        dl stop_post_state = some (0 + grace_period) ∧
        dl stop_post_state = some (7 + grace_period) := by
  constructor
  · rfl
  · rintro ⟨dl, h0, h7⟩
    have h := h0.symm.trans h7
    simp [grace_period] at h

/-- C7, amended: applied to a `Running` service with a recorded pid,
`stop_service` sends SIGTERM to that pid and sets the state to `Stopping`
(which records no deadline); it is idempotent on `Stopping` and a no-op on
`Stopped(_)`, returning success with the record unchanged in both cases. -/
theorem C7_stop_service_behavior (svc : Service) (p : Nat) :
    (svc.state = .Running → svc.pid = some p →
      stop_service kill_ok svc =
        .ok ({ svc with state := .Stopping }, some (p, SIGTERM))) ∧
    (svc.state = .Stopping →
      stop_service kill_ok svc = .ok (svc, none)) ∧
    (∀ reason, svc.state = .Stopped reason →
      stop_service kill_ok svc = .ok (svc, none)) := by
  refine ⟨?_, ?_, ?_⟩
  · intro hr hp
    simp [stop_service, hr, hp, kill_ok]
  · intro hstop
    simp [stop_service, hstop]
  · intro reason hstopped
    simp [stop_service, hstopped]

/-- C7, witness: stopping the concrete running service with pid 5 sends it
SIGTERM and marks it `Stopping`. -/
theorem C7_stop_service_behavior_witness :
    stop_service kill_ok svc_running =
      .ok ({ svc_running with state := .Stopping }, some (5, SIGTERM)) :=
  (C7_stop_service_behavior svc_running 5).1 rfl rfl

/-! ## Claim C8 — service id generation -/

/-- C8: starting from `ServiceIdGen::new`, the `k`-th call to `nextval`
(`k ≥ 1`) returns `some (k - 1)` for `k ≤ 65535` and `none` from the
65536-th call onward; the issued ids are strictly increasing (hence pairwise
distinct) and the id 65535 is never issued, because `checked_add` fails
before the final held value can be returned. -/
theorem C8_idgen_sequence (k : Nat) (hk : 1 ≤ k) :
    (k ≤ 65535 → nth_call_result k = some (k - 1)) ∧
    (65536 ≤ k → nth_call_result k = none) ∧
    nth_call_result k ≠ some 65535 ∧
    (∀ j, 1 ≤ j → j < k → k ≤ 65535 →
      ∃ a b, nth_call_result j = some a ∧ nth_call_result k = some b ∧
        a < b) := by
  have hval : ∀ m, nth_call_result m =
      if min (m - 1) 65535 + 1 ≤ 65535 then some (min (m - 1) 65535)
      else none := by
    intro m
    unfold nth_call_result ServiceIdGen.nextval u16_checked_add
    rw [gen_after_val]
    by_cases h : min (m - 1) 65535 + 1 ≤ 65535
    · simp only [h, if_pos]
    · simp only [h, if_neg, not_false_iff]
  refine ⟨?_, ?_, ?_, ?_⟩
  · intro hle
    rw [hval k]
    have h1 : min (k - 1) 65535 = k - 1 := by omega
    rw [h1]
    have h2 : k - 1 + 1 ≤ 65535 := by omega
    simp [h2]
  · intro hge
    rw [hval k]
    have h1 : min (k - 1) 65535 = 65535 := by omega
    rw [h1]
    simp
  · rw [hval k]
    by_cases h : min (k - 1) 65535 + 1 ≤ 65535
    · simp only [h, if_pos, ne_eq, Option.some.injEq]
      omega
    · simp only [h, if_neg, not_false_iff]
      simp
  · intro j hj1 hjk hk65
    refine ⟨j - 1, k - 1, ?_, ?_, by omega⟩
    · rw [hval j]
      have h1 : min (j - 1) 65535 = j - 1 := by omega
      rw [h1]
      have h2 : j - 1 + 1 ≤ 65535 := by omega
      simp [h2]
    · rw [hval k]
      have h1 : min (k - 1) 65535 = k - 1 := by omega
      rw [h1]
      have h2 : k - 1 + 1 ≤ 65535 := by omega
      simp [h2]

/-- C8, witness: the 2nd call yields id 1 and the 70000-th call yields
nothing. -/
theorem C8_idgen_sequence_witness :
    nth_call_result 2 = some 1 ∧ nth_call_result 70000 = none :=
  ⟨(C8_idgen_sequence 2 (by decide)).1 (by decide),
   (C8_idgen_sequence 70000 (by decide)).2.1 (by decide)⟩

/-! ## Claim C10 — stop on a pid-less running service -/

/-- C10: on a service whose state is `Running` but whose pid is `none` (a
state the registry invariant forbids), `stop_service` logs, returns `Ok`,
sends no signal, and leaves the record unchanged — for every possible `kill`
outcome, since `kill` is never reached. -/
theorem C10_stop_running_without_pid (svc : Service)
    (kr : Nat → Except Int Unit)
    (h1 : svc.state = .Running) (h2 : svc.pid = none) :
    stop_service kr svc = .ok (svc, none) := by
  simp [stop_service, h1, h2]

/-- C10, witness at a concrete pid-less running record and a failing `kill`
outcome. -/
theorem C10_stop_running_without_pid_witness :
    stop_service (fun _ => Except.error 1)
        ⟨1, "x", ⟨"/bin/true", []⟩, none, .Running⟩ =
      .ok (⟨1, "x", ⟨"/bin/true", []⟩, none, .Running⟩, none) :=
  C10_stop_running_without_pid _ _ rfl rfl

/-! ## Claim C6 — control reads never crash -/

/-- C6: reading and parsing control frames is total (`read_control_command`
and `control_command_try_from` are total Lean functions over every read
outcome and every frame). A read of `n` bytes with `n` not a multiple of the
frame size (for the 256-byte read buffer this means `0 < n < 256`) yields
the recoverable `PartialFrame(n)`; a zero-byte read and a would-block read
yield `Ok(None)` (no frame, no error); a complete frame whose opcode is
unknown yields the recoverable `InvalidOp(b)`. -/
theorem C6_control_read_classification (bytes : List Nat)
    (hlen : bytes.length ≤ WIRE_COMMAND_SIZE) :
    (bytes.length % WIRE_COMMAND_SIZE ≠ 0 →
      read_control_command (.okRead bytes) =
        .error (.InvalidCommand (.PartialFrame bytes.length)) ∧
      control_error_is_fatal
        (.InvalidCommand (.PartialFrame bytes.length)) = false) ∧
    (bytes.length = 0 → read_control_command (.okRead bytes) = .ok none) ∧
    read_control_command .wouldBlock = .ok none ∧
    (bytes.length = WIRE_COMMAND_SIZE →
      (wire_of_bytes bytes).op ≠ OP_STOP →
      (wire_of_bytes bytes).op ≠ OP_START →
      (wire_of_bytes bytes).op ≠ OP_RESTART →
      read_control_command (.okRead bytes) =
        .ok (some (wire_of_bytes bytes)) ∧
      control_command_try_from (wire_of_bytes bytes) =
        .error (.InvalidOp (wire_of_bytes bytes).op) ∧
      control_error_is_fatal
        (.InvalidCommand (.InvalidOp (wire_of_bytes bytes).op)) = false) := by
  refine ⟨?_, ?_, rfl, ?_⟩
  · intro hmod
    have hne : bytes.length ≠ WIRE_COMMAND_SIZE := by
      intro h
      rw [h] at hmod
      exact hmod (by decide)
    have h0 : bytes.length ≠ 0 := by
      intro h
      rw [h] at hmod
      exact hmod (by decide)
    exact ⟨by simp [read_control_command, hne, h0], rfl⟩
  · intro h0
    simp [read_control_command, h0, WIRE_COMMAND_SIZE]
  · intro h256 hop1 hop2 hop3
    refine ⟨by simp [read_control_command, h256], ?_, rfl⟩
    simp [control_command_try_from, control_op_of_byte, hop1, hop2, hop3]

/-- C6, witness: a 3-byte read is reported as a recoverable
`PartialFrame(3)`. -/
theorem C6_control_read_classification_witness :
    read_control_command (.okRead [0, 0, 0]) =
        .error (.InvalidCommand (.PartialFrame 3)) ∧
      control_error_is_fatal (.InvalidCommand (.PartialFrame 3)) = false :=
  (C6_control_read_classification [0, 0, 0] (by decide)).1 (by decide)

/-! ## Claim C9 — frame-to-command conversion is total -/

/-- C9: converting a wire frame to a `ControlCommand` has exactly the two
failure modes beyond `InvalidOp` and `PartialFrame` that the claim names:
with a valid opcode, a `name_len` exceeding the 254-byte name buffer yields
`InvalidNameLen(name_len)` and a non-UTF-8 name prefix yields `InvalidUtf8`.
The conversion is a total function and every error it can return is a
recoverable `ControlProtocolError` (never a `PartialFrame`, and never fatal
under the reactor's error classification). -/
theorem C9_try_from_total (w : WireControlCommand)
    (hname : w.name.length = 254) :
    ((w.op = OP_STOP ∨ w.op = OP_START ∨ w.op = OP_RESTART) →
      w.name_len > 254 →
      control_command_try_from w = .error (.InvalidNameLen w.name_len)) ∧
    ((w.op = OP_STOP ∨ w.op = OP_START ∨ w.op = OP_RESTART) →
      w.name_len ≤ 254 → utf8Valid (w.name.take w.name_len) = false →
      control_command_try_from w = .error .InvalidUtf8) ∧
    ((∃ c, control_command_try_from w = .ok c) ∨
      (∃ e, control_command_try_from w = .error e ∧
        control_error_is_fatal (.InvalidCommand e) = false ∧
        ∀ n, e ≠ .PartialFrame n)) := by
  have hop_ok : ∀ op : ControlOp,
      control_op_of_byte w.op = .ok op →
      control_command_try_from w =
        (if w.name_len > w.name.length then
          .error (.InvalidNameLen w.name_len)
        else if utf8Valid (w.name.take w.name_len) then
          .ok ⟨op, w.name.take w.name_len⟩
        else .error .InvalidUtf8) := by
    intro op hop
    simp [control_command_try_from, hop]
  have hvalid : ∀ h : w.op = OP_STOP ∨ w.op = OP_START ∨ w.op = OP_RESTART,
      ∃ op, control_op_of_byte w.op = .ok op := by
    rintro (h | h | h)
    · exact ⟨.Stop, by simp [control_op_of_byte, h, OP_STOP]⟩
    · exact ⟨.Start,
        by simp [control_op_of_byte, h, OP_STOP, OP_START]⟩
    · exact ⟨.Restart,
        by simp [control_op_of_byte, h, OP_STOP, OP_START, OP_RESTART]⟩
  refine ⟨?_, ?_, ?_⟩
  · intro hop hlen
    obtain ⟨op, hopok⟩ := hvalid hop
    rw [hop_ok op hopok, hname]
    simp [hlen]
  · intro hop hlen hutf
    obtain ⟨op, hopok⟩ := hvalid hop
    rw [hop_ok op hopok, hname]
    have : ¬ (w.name_len > 254) := by omega
    simp [this, hutf]
  · cases hb : control_op_of_byte w.op with
    | error e =>
      have he : e = .InvalidOp w.op := by
        unfold control_op_of_byte at hb
        split_ifs at hb with h1 h2 h3
        injection hb with h4
        exact h4.symm
      right
      refine ⟨e, ?_, rfl, ?_⟩
      · simp [control_command_try_from, hb]
      · intro n
        rw [he]
        intro hc
        exact ControlProtocolError.noConfusion hc
    | ok op =>
      rw [hop_ok op hb]
      by_cases h1 : w.name_len > w.name.length
      · right
        refine ⟨.InvalidNameLen w.name_len, by simp [h1], rfl, ?_⟩
        intro n hc
        exact ControlProtocolError.noConfusion hc
      · by_cases h2 : utf8Valid (w.name.take w.name_len) = true
        · left
          exact ⟨⟨op, w.name.take w.name_len⟩, by simp [h1, h2]⟩
        · right
          refine ⟨.InvalidUtf8, ?_, rfl, ?_⟩
          · simp only [h1, if_neg, not_false_iff]
            simp [h2]
          · intro n hc
            exact ControlProtocolError.noConfusion hc

/-- C9, witness: with a valid opcode and `name_len = 255 > 254` the
conversion reports `InvalidNameLen(255)`. -/
theorem C9_try_from_total_witness :
    control_command_try_from
        ⟨0x41, 255, List.replicate 254 0⟩ =
      .error (.InvalidNameLen 255) :=
  (C9_try_from_total ⟨0x41, 255, List.replicate 254 0⟩
      (by rw [show (⟨0x41, 255, List.replicate 254 0⟩ :
            WireControlCommand).name = List.replicate 254 0 from rfl,
          List.length_replicate])).1 (Or.inl rfl) (by decide)

/-! ## Claim C2 — the registry invariant at quiescent points -/

theorem InvAux_init : InvAux ServiceRegistry.new := by
  constructor
  · intro i svc hs
    simp [ServiceRegistry.new, alLookup] at hs
  · intro p i hp
    simp [ServiceRegistry.new, alLookup] at hp

theorem InvAux_insert (r : ServiceRegistry) (svc : Service)
    (hI : InvAux r) (hid : alLookup svc.id r.services_map = none)
    (hpid : svc.pid = none)
    (hstate : svc.state = .Stopped .NeverStarted) :
    InvAux (r.insert_service svc) := by
  obtain ⟨h1, h2⟩ := hI
  constructor
  · intro i s hs
    simp only [insert_service_services_map, insert_service_pids_map] at hs ⊢
    rw [alLookup_alInsert] at hs
    by_cases hi : i = svc.id
    · rw [if_pos hi] at hs
      have hseq : s = svc := (Option.some.inj hs).symm
      subst hseq
      refine ⟨hi.symm, ?_, ?_⟩
      · intro hrs
        exfalso
        rcases hrs with h | h <;> rw [hstate] at h <;> simp at h
      · intro reason _
        exact hpid
    · rw [if_neg hi] at hs
      exact h1 i s hs
  · intro p i hp
    simp only [insert_service_services_map, insert_service_pids_map] at hp ⊢
    obtain ⟨s, hs, hsp, hrs⟩ := h2 p i hp
    refine ⟨s, ?_, hsp, hrs⟩
    rw [alLookup_alInsert]
    by_cases hi : i = svc.id
    · exfalso
      rw [hi] at hs
      rw [hid] at hs
      exact Option.noConfusion hs
    · rw [if_neg hi]
      exact hs

theorem InvAux_spawn (r : ServiceRegistry) (svc_id p : Nat) (svc : Service)
    (hI : InvAux r)
    (hsvc : alLookup svc_id r.services_map = some svc)
    (hstopped : svc.is_stopped = true)
    (hfresh : alLookup p r.pids_map = none) :
    InvAux (registry_spawn r svc_id p) := by
  obtain ⟨h1, h2⟩ := hI
  have hid0 : svc.id = svc_id := (h1 _ _ hsvc).1
  obtain ⟨reason0, hreason0⟩ := (is_stopped_iff svc).mp hstopped
  constructor
  · intro i s hs
    simp only [registry_spawn_services_map, registry_spawn_pids_map] at hs ⊢
    rw [alLookup_alUpdate] at hs
    by_cases hi : i = svc_id
    · rw [if_pos hi] at hs
      subst hi
      rw [hsvc] at hs
      have hseq : s = spawn_update p svc := (Option.some.inj hs).symm
      subst hseq
      refine ⟨?_, ?_, ?_⟩
      · simp [spawn_update, hid0]
      · intro _
        refine ⟨p, by simp [spawn_update], ?_⟩
        rw [alLookup_alInsert]
        simp
      · intro reason hr
        exfalso
        simp [spawn_update] at hr
    · rw [if_neg hi] at hs
      obtain ⟨ha, hb, hc⟩ := h1 i s hs
      refine ⟨ha, ?_, hc⟩
      intro hrs
      obtain ⟨q, hq1, hq2⟩ := hb hrs
      refine ⟨q, hq1, ?_⟩
      rw [alLookup_alInsert]
      by_cases hq : q = p
      · exfalso
        rw [hq] at hq2
        rw [hfresh] at hq2
        exact Option.noConfusion hq2
      · rw [if_neg hq]
        exact hq2
  · intro q i hq
    simp only [registry_spawn_services_map, registry_spawn_pids_map] at hq ⊢
    rw [alLookup_alInsert] at hq
    by_cases hqp : q = p
    · subst hqp
      rw [if_pos rfl] at hq
      have hieq : i = svc_id := (Option.some.inj hq).symm
      subst hieq
      refine ⟨spawn_update q svc, ?_, by simp [spawn_update],
        Or.inl (by simp [spawn_update])⟩
      rw [alLookup_alUpdate, if_pos rfl, hsvc]
      rfl
    · rw [if_neg hqp] at hq
      obtain ⟨s, hs, hsp, hrs⟩ := h2 q i hq
      by_cases hi : i = svc_id
      · exfalso
        rw [hi] at hs
        rw [hsvc] at hs
        have hseq : s = svc := (Option.some.inj hs).symm
        subst hseq
        rcases hrs with h | h <;> rw [hreason0] at h <;> simp at h
      · refine ⟨s, ?_, hsp, hrs⟩
        rw [alLookup_alUpdate, if_neg hi]
        exact hs

theorem InvAux_stop (r : ServiceRegistry) (svc_id : Nat) (hI : InvAux r) :
    InvAux (registry_stop r svc_id) := by
  obtain ⟨h1, h2⟩ := hI
  constructor
  · intro i s hs
    simp only [registry_stop_services_map, registry_stop_pids_map] at hs ⊢
    rw [alLookup_alUpdate] at hs
    by_cases hi : i = svc_id
    · rw [if_pos hi] at hs
      cases hold : alLookup i r.services_map with
      | none =>
        rw [hold] at hs
        exact Option.noConfusion hs
      | some s0 =>
        rw [hold] at hs
        have hseq : s = apply_stop s0 := (Option.some.inj hs).symm
        subst hseq
        obtain ⟨ha, hb, hc⟩ := h1 i s0 hold
        refine ⟨?_, ?_, ?_⟩
        · rw [apply_stop_id]
          exact ha
        · intro hrs
          have hs0rs : s0.state = .Running ∨ s0.state = .Stopping := by
            rcases apply_stop_state s0 with h | h
            · rw [h] at hrs
              exact hrs
            · by_cases h0 : s0.state = ServiceState.Running
              · exact Or.inl h0
              · rw [apply_stop_eq, if_neg h0] at h
                exact Or.inr h
          obtain ⟨q, hq1, hq2⟩ := hb hs0rs
          exact ⟨q, by rw [apply_stop_pid]; exact hq1, hq2⟩
        · intro reason hr
          rw [apply_stop_pid]
          have hs0 : s0.state = .Stopped reason := by
            rcases apply_stop_state s0 with h | h
            · rw [h] at hr
              exact hr
            · exfalso
              rw [h] at hr
              exact ServiceState.noConfusion hr
          exact hc reason hs0
    · rw [if_neg hi] at hs
      exact h1 i s hs
  · intro q i hq
    simp only [registry_stop_services_map, registry_stop_pids_map] at hq ⊢
    obtain ⟨s, hs, hsp, hrs⟩ := h2 q i hq
    by_cases hi : i = svc_id
    · refine ⟨apply_stop s, ?_, ?_, ?_⟩
      · rw [alLookup_alUpdate, if_pos hi, hs]
        rfl
      · rw [apply_stop_pid]
        exact hsp
      · rcases apply_stop_state s with h | h
        · rw [h]
          exact hrs
        · exact Or.inr h
    · refine ⟨s, ?_, hsp, hrs⟩
      rw [alLookup_alUpdate, if_neg hi]
      exact hs

theorem InvAux_reap_one (r : ServiceRegistry) (pid : Nat)
    (er : Option ExitReason) (hI : InvAux r) :
    InvAux (reap_one r pid er) := by
  obtain ⟨h1, h2⟩ := hI
  cases er with
  | none => exact ⟨h1, h2⟩
  | some e =>
    cases hpe : alLookup pid r.pids_map with
    | none =>
      rw [reap_one_unknown_pid r pid e hpe]
      exact ⟨h1, h2⟩
    | some svc_id =>
      cases hse : alLookup svc_id r.services_map with
      | none =>
        rw [reap_one_dangling r pid svc_id e hpe hse]
        constructor
        · intro i s hs
          obtain ⟨ha, hb, hc⟩ := h1 i s hs
          refine ⟨ha, ?_, hc⟩
          intro hrs
          obtain ⟨q, hq1, hq2⟩ := hb hrs
          refine ⟨q, hq1, ?_⟩
          show alLookup q (alErase pid r.pids_map) = some i
          rw [alLookup_alErase]
          by_cases hq : q = pid
          · exfalso
            rw [hq] at hq2
            rw [hpe] at hq2
            have hieq : svc_id = i := Option.some.inj hq2
            rw [← hieq] at hs
            rw [hse] at hs
            exact Option.noConfusion hs
          · rw [if_neg hq]
            exact hq2
        · intro q i hq
          replace hq : alLookup q (alErase pid r.pids_map) = some i := hq
          rw [alLookup_alErase] at hq
          by_cases hqp : q = pid
          · rw [if_pos hqp] at hq
            exact Option.noConfusion hq
          · rw [if_neg hqp] at hq
            obtain ⟨s, hs, hsp, hrs⟩ := h2 q i hq
            exact ⟨s, hs, hsp, hrs⟩
      | some svc =>
        rw [reap_one_found r pid svc_id e svc hpe hse]
        constructor
        · intro i s hs
          replace hs : alLookup i
              (alUpdate svc_id
                (fun s =>
                  { s with
                    pid := none
                    state := .Stopped
                      (ServiceStopReason.from_exit_reason_and_service_state
                        e svc.state) })
                r.services_map) = some s := hs
          rw [alLookup_alUpdate] at hs
          by_cases hi : i = svc_id
          · rw [if_pos hi] at hs
            subst hi
            rw [hse] at hs
            have hseq : s = { svc with
                pid := none
                state := .Stopped
                  (ServiceStopReason.from_exit_reason_and_service_state
                    e svc.state) } := (Option.some.inj hs).symm
            subst hseq
            refine ⟨(h1 _ _ hse).1, ?_, ?_⟩
            · intro hrs
              exfalso
              rcases hrs with h | h <;> simp at h
            · intro reason _
              rfl
          · rw [if_neg hi] at hs
            obtain ⟨ha, hb, hc⟩ := h1 i s hs
            refine ⟨ha, ?_, hc⟩
            intro hrs
            obtain ⟨q, hq1, hq2⟩ := hb hrs
            refine ⟨q, hq1, ?_⟩
            show alLookup q (alErase pid r.pids_map) = some i
            rw [alLookup_alErase]
            by_cases hq : q = pid
            · exfalso
              rw [hq] at hq2
              rw [hpe] at hq2
              exact hi (Option.some.inj hq2).symm
            · rw [if_neg hq]
              exact hq2
        · intro q i hq
          replace hq : alLookup q (alErase pid r.pids_map) = some i := hq
          rw [alLookup_alErase] at hq
          by_cases hqp : q = pid
          · rw [if_pos hqp] at hq
            exact Option.noConfusion hq
          · rw [if_neg hqp] at hq
            obtain ⟨s, hs, hsp, hrs⟩ := h2 q i hq
            by_cases hi : i = svc_id
            · exfalso
              rw [hi] at hs
              rw [hse] at hs
              have hseq : svc = s := Option.some.inj hs
              obtain ⟨s2, hs2, hsp2, _⟩ := h2 pid svc_id hpe
              rw [hse] at hs2
              have hseq2 : svc = s2 := Option.some.inj hs2
              rw [← hseq2, hseq, hsp] at hsp2
              exact hqp (Option.some.inj hsp2)
            · refine ⟨s, ?_, hsp, hrs⟩
              show alLookup i (alUpdate svc_id _ r.services_map) = some s
              rw [alLookup_alUpdate, if_neg hi]
              exact hs

theorem InvAux_handle_sigchld (events : List (Nat × Option ExitReason))
    (r : ServiceRegistry) (hI : InvAux r) :
    InvAux (handle_sigchld r events) := by
  induction events generalizing r with
  | nil => exact hI
  | cons ev es ih =>
    have hstep : handle_sigchld r (ev :: es) =
        handle_sigchld (reap_one r ev.1 ev.2) es := rfl
    rw [hstep]
    exact ih _ (InvAux_reap_one _ _ _ hI)

theorem InvAux_reachable (r : ServiceRegistry) (h : Reachable r) :
    InvAux r := by
  induction h with
  | init => exact InvAux_init
  | insert_new r svc _ hid hpid hstate ih =>
    exact InvAux_insert r svc ih hid hpid hstate
  | spawn r svc_id p svc _ hsvc hstopped hfresh ih =>
    exact InvAux_spawn r svc_id p svc ih hsvc hstopped hfresh
  | stop r svc_id _ ih =>
    exact InvAux_stop r svc_id ih
  | sigchld r events _ ih =>
    exact InvAux_handle_sigchld events r ih

theorem RegistryInv_of_InvAux (r : ServiceRegistry) (hI : InvAux r) :
    RegistryInv r := by
  obtain ⟨h1, h2⟩ := hI
  constructor
  · intro i svc hs
    obtain ⟨_, hb, hc⟩ := h1 i svc hs
    refine ⟨hb, ?_⟩
    intro reason hr
    refine ⟨hc reason hr, ?_⟩
    intro p hp
    obtain ⟨s2, hs2, hsp2, hrs2⟩ := h2 p i hp
    rw [hs] at hs2
    have hseq : s2 = svc := (Option.some.inj hs2).symm
    subst hseq
    rcases hrs2 with h | h <;> rw [hr] at h <;>
      exact ServiceState.noConfusion h
  · intro p i
    constructor
    · intro hp
      obtain ⟨s, hs, hsp, _⟩ := h2 p i hp
      exact ⟨s, hs, hsp⟩
    · rintro ⟨s, hs, hsp⟩
      obtain ⟨_, hb, hc⟩ := h1 i s hs
      cases hstate : s.state with
      | Stopped reason =>
        exfalso
        rw [hc reason hstate] at hsp
        exact Option.noConfusion hsp
      | Running =>
        obtain ⟨q, hq1, hq2⟩ := hb (Or.inl hstate)
        rw [hsp] at hq1
        have : p = q := Option.some.inj hq1
        rw [this]
        exact hq2
      | Stopping =>
        obtain ⟨q, hq1, hq2⟩ := hb (Or.inr hstate)
        rw [hsp] at hq1
        have : p = q := Option.some.inj hq1
        rw [this]
        exact hq2

/-- C2: at every quiescent point of the reactor — modelled by the
`Reachable` step relation covering the initial config load and spawn loop,
graceful-stop requests and SIGCHLD handling — every `Running` or `Stopping`
service has a recorded pid that the pid index maps back to its id, every
`Stopped` service has no pid and no pid-index entry referring to it, and the
pid index is exactly the inverse of the `id → pid` relation restricted to
recorded pids. -/
theorem C2_registry_invariant (r : ServiceRegistry) (h : Reachable r) :
    RegistryInv r :=
  RegistryInv_of_InvAux r (InvAux_reachable r h)

/-- C2, witness: the invariant holds of the concrete registry obtained by
inserting a fresh service and spawning it with pid 42. -/
theorem C2_registry_invariant_witness : RegistryInv sample_registry :=
  C2_registry_invariant sample_registry
    (Reachable.spawn _ 0 42 svc_fresh
      (Reachable.insert_new _ svc_fresh Reachable.init (by decide) (by decide)
        (by decide))
      (by decide) (by decide) (by decide))

end Svlopp
